import Mathlib

/-!
Shallow embedding of `src/python/src/basetrainer.py` (class `BaseTrainer`),
the training orchestrator of the superpoint repository.

Numeric losses and metrics are modelled by exact rationals (`ℚ`); Python's
true division `/` on a zero integer denominator raises `ZeroDivisionError`,
which is modelled by the `Except` monad with error `PyErr.zeroDivisionError`.
Side effects on the optimizer, the gradient scaler and the instrumentation
sink are recorded as an explicit event trace.
-/

namespace SuperPoint

/-- Python exceptions that the orchestrator's control flow can raise. -/
inductive PyErr where
  | zeroDivisionError
  | valueError
deriving DecidableEq, Repr

/-- The configuration fields of `settings` that the orchestrator's control
logic reads (`learning_rate`, device flags and image geometry do not affect
the control flow modelled here). -/
structure Settings where
  batch_size : Nat
  batch_size_divider : Nat
  use_amp : Bool
  write_statistics : Bool
  epochs : Nat
deriving DecidableEq, Repr

/-- Observable side effects of one call to `train_loop`:
`backward i` is the gradient propagation for micro-batch `i`
(`scaler.scale(loss).backward()` or `loss.backward()`);
`report c g` is an instrumentation emission from `write_batch_statistics`
at accumulation-commit index `c` keyed by global step `g`;
`stepAmp` is `scaler.step(optimizer)` followed by `scaler.update()`;
`stepPlain` is `optimizer.step()`;
`zeroGrad` is `optimizer.zero_grad(set_to_none=True)`. -/
inductive Event where
  | backward (i : Nat)
  | report (commit step : Nat)
  | stepAmp
  | stepPlain
  | zeroGrad
deriving DecidableEq, Repr

/-- The optimizer-commit event selected by `settings.use_amp`. -/
def stepEv (s : Settings) : Event :=
  if s.use_amp then Event.stepAmp else Event.stepPlain

/-- Whether an event is an instrumentation emission. -/
def isReport : Event → Bool
  | Event.report _ _ => true
  | _ => false

/-- Whether an event is an optimizer commit (amp or plain). -/
def isStep : Event → Bool
  | Event.stepAmp => true
  | Event.stepPlain => true
  | _ => false

/-- The gradient-accumulation closing condition of `train_loop`
(line `if ((batch_index + 1) % self.settings.batch_size_divider == 0) or
(batch_index + 1 == len(self.train_dataloader))`); `test_loop` uses the
same expression with `N = len(self.train_dataloader)` as well. -/
def groupCloses (d N i : Nat) : Bool :=
  ((i + 1) % d == 0) || (i + 1 == N)

/-- Number of indices `j` in `[i, i + n)` at which `groupCloses d N j`
holds, i.e. how many accumulation groups close while batch indices
`i, i+1, …, i+n-1` are processed. -/
def countClosesFrom (d N i : Nat) : Nat → Nat
  | 0 => 0
  | n + 1 => (if groupCloses d N i then 1 else 0) + countClosesFrom d N (i + 1) n

/-- Embedding of `BaseTrainer.write_batch_statistics(loss, batch_index)`:
when `batch_index % 100 == 0` it emits instrumentation keyed by
`self.global_train_index` and increments that counter; otherwise it does
nothing. Returns the emitted events and the new `global_train_index`. -/
def write_batch_statistics (batch_index global_train_index : Nat) :
    List Event × Nat :=
  if batch_index % 100 == 0 then
    ([Event.report batch_index global_train_index], global_train_index + 1)
  else
    ([], global_train_index)

/-- Result of the body of `train_loop`: accumulated epoch loss,
`real_batch_index` (closed-group counter), the updated
`global_train_index`, and the event trace in execution order. -/
structure LoopOut where
  train_loss : ℚ
  real_batch_index : Nat
  global_train_index : Nat
  trace : List Event
deriving DecidableEq, Repr

/-- The `for batch_index, batch in enumerate(self.train_dataloader)` body of
`BaseTrainer.train_loop`. `N` is `len(self.train_dataloader)`, the list
holds the values returned by `train_loss_fn` for the successive
micro-batches, `i` is `batch_index`, and the remaining arguments are the
mutable locals `train_loss`, `batch_loss`, `real_batch_index` and the field
`self.global_train_index`. -/
def train_loop_go (s : Settings) (N : Nat) :
    List ℚ → Nat → ℚ → ℚ → Nat → Nat → LoopOut
  | [], _, train_loss, _, rbi, gti =>
      { train_loss := train_loss, real_batch_index := rbi,
        global_train_index := gti, trace := [] }
  | l :: rest, i, train_loss, batch_loss, rbi, gti =>
      let nl := l / (s.batch_size_divider : ℚ)
      if groupCloses s.batch_size_divider N i then
        let sg := if s.write_statistics
          then write_batch_statistics rbi gti else ([], gti)
        let r := train_loop_go s N rest (i + 1) (train_loss + nl) 0 (rbi + 1) sg.2
        { r with trace :=
            Event.backward i :: (sg.1 ++ stepEv s :: Event.zeroGrad :: r.trace) }
      else
        let r := train_loop_go s N rest (i + 1) (train_loss + nl)
          (batch_loss + nl) rbi gti
        { r with trace := Event.backward i :: r.trace }

/-- Embedding of `BaseTrainer.train_loop`. The final statement
`train_loss = train_loss.item() / real_batch_index` divides a Python float
by the int `real_batch_index` and raises `ZeroDivisionError` when the
counter is zero. On success it returns the epoch training loss, the updated
`global_train_index` and the event trace. -/
def train_loop (s : Settings) (losses : List ℚ) (gti : Nat) :
    Except PyErr (ℚ × Nat × List Event) :=
  let out := train_loop_go s losses.length losses 0 0 0 0 gti
  if out.real_batch_index = 0 then
    Except.error PyErr.zeroDivisionError
  else
    Except.ok (out.train_loss / (out.real_batch_index : ℚ),
      out.global_train_index, out.trace)

/-- Result of the body of `test_loop`: accumulated test loss, the
accumulated `self.f1` metric, and the `batches_num` counter. -/
structure TestOut where
  test_loss : ℚ
  f1 : ℚ
  batches_num : Nat
deriving DecidableEq, Repr

/-- The `for batch_index, batch in enumerate(self.test_dataloader)` body of
`BaseTrainer.test_loop`. `len_train` is `len(self.train_dataloader)` — the
boundary check in the source compares against the *training* dataloader's
length. Each list element holds the pair (loss from `test_loss_fn`,
value of `self.f1_metric(softmax_result, labels)`) for one micro-batch;
both are divided by `batch_size_divider` before accumulation. -/
def test_loop_go (d len_train : Nat) :
    List (ℚ × ℚ) → Nat → ℚ → ℚ → Nat → TestOut
  | [], _, test_loss, f1, bn =>
      { test_loss := test_loss, f1 := f1, batches_num := bn }
  | b :: rest, i, test_loss, f1, bn =>
      let f1n := f1 + b.2 / (d : ℚ)
      let tln := test_loss + b.1 / (d : ℚ)
      let bnn := if groupCloses d len_train i then bn + 1 else bn
      test_loop_go d len_train rest (i + 1) tln f1n bnn

/-- Embedding of `BaseTrainer.test_loop`. `f1start` is the value of
`self.f1` on entry (the caller `train` sets it to 0 just before). The final
`test_loss /= batches_num` divides a Python float by an int and raises
`ZeroDivisionError` when `batches_num` is zero. On success it returns
(test loss, `batches_num`, accumulated `self.f1`). -/
def test_loop (d len_train : Nat) (batches : List (ℚ × ℚ)) (f1start : ℚ) :
    Except PyErr (ℚ × Nat × ℚ) :=
  let out := test_loop_go d len_train batches 0 0 f1start 0
  if out.batches_num = 0 then
    Except.error PyErr.zeroDivisionError
  else
    Except.ok (out.test_loss / (out.batches_num : ℚ), out.batches_num, out.f1)

/-- Per-epoch result recorded by `BaseTrainer.train`: the epoch index of
the iteration, the reported train loss, test loss and epoch F1
(`self.f1 /= batches_num`), the epoch index passed to `save_checkpoint`,
and the training-loop event trace of the epoch. -/
structure EpochOut where
  epoch : Int
  train_loss : ℚ
  test_loss : ℚ
  f1 : ℚ
  saved_checkpoint : Int
  trace : List Event
deriving DecidableEq, Repr

/-- One iteration of the epoch loop of `BaseTrainer.train`: run
`train_loop`, reset `self.f1 = 0`, run `test_loop`, divide `self.f1` by
`batches_num` (which is nonzero whenever `test_loop` returns), and save a
checkpoint for `epoch`. `train_losses`/`test_batches` are the per-batch
values the pluggable loss strategies return this epoch; the training
dataloader length is `train_losses.length`. -/
def run_epoch (s : Settings) (train_losses : List ℚ)
    (test_batches : List (ℚ × ℚ)) (epoch : Int) (gti : Nat) :
    Except PyErr (EpochOut × Nat) := do
  let tl ← train_loop s train_losses gti
  let te ← test_loop s.batch_size_divider train_losses.length test_batches 0
  pure ({ epoch := epoch, train_loss := tl.1, test_loss := te.1,
          f1 := te.2.2 / (te.2.1 : ℚ), saved_checkpoint := epoch,
          trace := tl.2.2 }, tl.2.1)

/-- The epoch loop `for epoch in range(start_epoch, epochs_num)` of
`BaseTrainer.train`, over an explicit list of epoch indices, threading
`self.global_train_index`. An exception in any epoch aborts the run. -/
def train_epochs (s : Settings) (trainData : Int → List ℚ)
    (testData : Int → List (ℚ × ℚ)) :
    List Int → Nat → Except PyErr (List EpochOut × Nat)
  | [], gti => Except.ok ([], gti)
  | e :: rest, gti => do
    let r ← run_epoch s (trainData e) (testData e) e gti
    let rs ← train_epochs s trainData testData rest r.2
    pure (r.1 :: rs.1, rs.2)

/-- The `start_epoch` computation of `BaseTrainer.train`:
`load_last_checkpoint` returns the last checkpointed epoch, or a negative
sentinel when no checkpoint exists; training resumes at `prev_epoch + 1`
in the former case and at 0 in the latter. -/
def start_epoch_of (prev_epoch : Int) : Int :=
  if prev_epoch ≥ 0 then prev_epoch + 1 else 0

/-- Embedding of `BaseTrainer.train`. `prev_epoch` is the value returned by
`load_last_checkpoint`. The epoch range is
`range(start_epoch, start_epoch + self.epochs)` and
`self.global_train_index` is set to 0 before the loop, unconditionally. -/
def train (s : Settings) (prev_epoch : Int) (trainData : Int → List ℚ)
    (testData : Int → List (ℚ × ℚ)) : Except PyErr (List EpochOut × Nat) :=
  train_epochs s trainData testData
    ((List.range s.epochs).map (fun k => start_epoch_of prev_epoch + Int.ofNat k)) 0

/-- Python's integer floor division `a // b`, which raises
`ZeroDivisionError` on a zero divisor. -/
def floordiv (a b : Nat) : Except PyErr Nat :=
  if b = 0 then Except.error PyErr.zeroDivisionError else Except.ok (a / b)

/-- Modelled from the documented contract of the external collaborator
`torch.utils.data.DataLoader` (constructed inside `BaseTrainer.__init__`):
its batch sampler requires `batch_size` to be a positive integer and raises
`ValueError` at construction time otherwise. -/
def DataLoader_make (batch_size : Nat) : Except PyErr Nat :=
  if batch_size = 0 then Except.error PyErr.valueError else Except.ok batch_size

/-- Embedding of the control-relevant part of `BaseTrainer.__init__`:
`batch_size = self.settings.batch_size // self.settings.batch_size_divider`
followed by the construction of the train and test dataloaders with that
micro-batch size. Returns the micro-batch size on success. -/
def BaseTrainer_init (s : Settings) : Except PyErr Nat := do
  let micro ← floordiv s.batch_size s.batch_size_divider
  let _ ← DataLoader_make micro
  let _ ← DataLoader_make micro
  pure micro

/-- The commit indices carried by the instrumentation events of a trace, in
order. -/
def reportCommits : List Event → List Nat
  | [] => []
  | Event.report c _ :: rest => c :: reportCommits rest
  | _ :: rest => reportCommits rest

/-- The global-step keys carried by the instrumentation events of a trace,
in order. -/
def reportSteps : List Event → List Nat
  | [] => []
  | Event.report _ g :: rest => g :: reportSteps rest
  | _ :: rest => reportSteps rest

/-- The list `[a, a+1, …, a+n-1]` of `n` consecutive naturals. -/
def consecFrom (a : Nat) : Nat → List Nat
  | 0 => []
  | n + 1 => a :: consecFrom (a + 1) n

/-- The commit indices at which `write_batch_statistics` emits, out of `k`
successive accumulation commits whose indices start at `c`: exactly those
whose index is divisible by 100. -/
def reportCommitsFrom (c : Nat) : Nat → List Nat
  | 0 => []
  | k + 1 => (if c % 100 == 0 then [c] else []) ++ reportCommitsFrom (c + 1) k

/-- Concatenation of the per-epoch event traces of a run, in epoch order. -/
def runTrace : List EpochOut → List Event
  | [] => []
  | o :: rest => o.trace ++ runTrace rest

/-- The instrumentation-free skeleton of the training-loop trace for batch
indices `i, …, i+n-1` out of `N`: one `backward` per micro-batch, and at
each micro-batch that closes an accumulation group exactly one optimizer
commit immediately followed by one gradient clear — and nothing at any
other micro-batch. -/
def gradSeq (s : Settings) (N : Nat) : Nat → Nat → List Event
  | _, 0 => []
  | i, n + 1 =>
      Event.backward i ::
        ((if groupCloses s.batch_size_divider N i
          then [stepEv s, Event.zeroGrad] else []) ++ gradSeq s N (i + 1) n)

/-- Scans a trace and checks that every optimizer-commit event is
immediately followed by a gradient-clear event (a commit as the last event
of the trace fails the check). -/
def stepsImmediatelyCleared : List Event → Bool
  | [] => true
  | [e] => !isStep e
  | e :: e2 :: rest =>
      (!isStep e || (e2 == Event.zeroGrad)) &&
        stepsImmediatelyCleared (e2 :: rest)

/-- A minimal concrete configuration (divider 1, statistics on, one epoch)
used to exercise the theorems on closed inputs. -/
def sWit : Settings :=
  { batch_size := 1, batch_size_divider := 1, use_amp := false,
    write_statistics := true, epochs := 1 }

/-- Concrete per-epoch training losses: a single micro-batch of loss 1. -/
def tdWit : Int → List ℚ := fun _ => [1]

/-- Concrete per-epoch evaluation batches: a single micro-batch with loss 1
and F1 metric 1. -/
def tsWit : Int → List (ℚ × ℚ) := fun _ => [(1, 1)]

/-- The epoch results of `train sWit (-1) tdWit tsWit` (fresh run starting
at epoch 0). -/
def outsWit : List EpochOut :=
  [{ epoch := 0, train_loss := 1, test_loss := 1, f1 := 1,
     saved_checkpoint := 0,
     trace := [Event.backward 0, Event.report 0 0, Event.stepPlain,
       Event.zeroGrad] }]

/-- The epoch results of `train sWit 5 tdWit tsWit` (run resumed from a
checkpoint at epoch 5). -/
def outsWitResumed : List EpochOut :=
  [{ epoch := 6, train_loss := 1, test_loss := 1, f1 := 1,
     saved_checkpoint := 6,
     trace := [Event.backward 0, Event.report 0 0, Event.stepPlain,
       Event.zeroGrad] }]

/-! Helper lemmas characterizing the loop bodies. -/

@[simp] theorem isReport_stepEv (s : Settings) : isReport (stepEv s) = false := by
  unfold stepEv; split <;> rfl

@[simp] theorem isStep_stepEv (s : Settings) : isStep (stepEv s) = true := by
  unfold stepEv; split <;> rfl

@[simp] theorem isReport_backward (i : Nat) :
    isReport (Event.backward i) = false := rfl

@[simp] theorem isReport_report (c g : Nat) :
    isReport (Event.report c g) = true := rfl

@[simp] theorem isReport_zeroGrad : isReport Event.zeroGrad = false := rfl

@[simp] theorem isStep_backward (i : Nat) :
    isStep (Event.backward i) = false := rfl

@[simp] theorem isStep_report (c g : Nat) :
    isStep (Event.report c g) = false := rfl

@[simp] theorem isStep_zeroGrad : isStep Event.zeroGrad = false := rfl

theorem reportSteps_cons_of_not (e : Event) (l : List Event)
    (h : isReport e = false) : reportSteps (e :: l) = reportSteps l := by
  cases e <;> simp_all [reportSteps, isReport]

theorem reportCommits_cons_of_not (e : Event) (l : List Event)
    (h : isReport e = false) : reportCommits (e :: l) = reportCommits l := by
  cases e <;> simp_all [reportCommits, isReport]

theorem reportSteps_append (a b : List Event) :
    reportSteps (a ++ b) = reportSteps a ++ reportSteps b := by
  induction a with
  | nil => rfl
  | cons e rest ih => cases e <;> simp [reportSteps, ih]

theorem train_loop_go_loss (s : Settings) (N : Nat) (l : List ℚ) :
    ∀ (i : Nat) (tl bl : ℚ) (rbi gti : Nat),
      (train_loop_go s N l i tl bl rbi gti).train_loss
        = tl + (l.map (fun x => x / (s.batch_size_divider : ℚ))).sum := by
  induction l with
  | nil => intro i tl bl rbi gti; simp [train_loop_go]
  | cons x rest ih =>
    intro i tl bl rbi gti
    by_cases hc : groupCloses s.batch_size_divider N i
    · simp only [train_loop_go, hc, if_true, ih]
      simp [add_assoc]
    · simp only [train_loop_go, hc, if_false, ih]
      simp [add_assoc]

theorem train_loop_go_rbi (s : Settings) (N : Nat) (l : List ℚ) :
    ∀ (i : Nat) (tl bl : ℚ) (rbi gti : Nat),
      (train_loop_go s N l i tl bl rbi gti).real_batch_index
        = rbi + countClosesFrom s.batch_size_divider N i l.length := by
  induction l with
  | nil => intro i tl bl rbi gti; simp [train_loop_go, countClosesFrom]
  | cons x rest ih =>
    intro i tl bl rbi gti
    by_cases hc : groupCloses s.batch_size_divider N i
    · simp only [train_loop_go, hc, if_true, ih, List.length_cons,
        countClosesFrom]
      omega
    · simp only [train_loop_go, hc, if_false, ih, List.length_cons,
        countClosesFrom]
      simp [hc]

theorem reportSteps_segment (s : Settings) (i : Nat) (sg1 tr : List Event) :
    reportSteps (Event.backward i :: (sg1 ++ stepEv s :: Event.zeroGrad :: tr))
      = reportSteps sg1 ++ reportSteps tr := by
  rw [reportSteps_cons_of_not (Event.backward i) _ rfl, reportSteps_append,
    reportSteps_cons_of_not (stepEv s) _ (isReport_stepEv s),
    reportSteps_cons_of_not Event.zeroGrad _ rfl]

theorem train_loop_go_gti_steps (s : Settings) (N : Nat) (l : List ℚ) :
    ∀ (i : Nat) (tl bl : ℚ) (rbi gti : Nat),
      gti ≤ (train_loop_go s N l i tl bl rbi gti).global_train_index ∧
      reportSteps (train_loop_go s N l i tl bl rbi gti).trace
        = consecFrom gti
            ((train_loop_go s N l i tl bl rbi gti).global_train_index - gti) := by
  induction l with
  | nil => intro i tl bl rbi gti; simp [train_loop_go, reportSteps, consecFrom]
  | cons x rest ih =>
    intro i tl bl rbi gti
    by_cases hc : groupCloses s.batch_size_divider N i
    · by_cases hw : s.write_statistics
      · by_cases hm : rbi % 100 == 0
        · have hwbs : write_batch_statistics rbi gti
              = ([Event.report rbi gti], gti + 1) := by
            simp [write_batch_statistics, hm]
          have h := ih (i + 1) (tl + x / (s.batch_size_divider : ℚ)) 0
            (rbi + 1) (gti + 1)
          obtain ⟨h1, h2⟩ := h
          simp only [train_loop_go, hc, if_true, hw, hwbs]
          rw [reportSteps_segment]
          refine ⟨by omega, ?_⟩
          rw [h2]
          have he : (train_loop_go s N rest (i + 1)
              (tl + x / (s.batch_size_divider : ℚ)) 0 (rbi + 1)
              (gti + 1)).global_train_index - gti
            = ((train_loop_go s N rest (i + 1)
              (tl + x / (s.batch_size_divider : ℚ)) 0 (rbi + 1)
              (gti + 1)).global_train_index - (gti + 1)) + 1 := by omega
          rw [he]
          rfl
        · have hwbs : write_batch_statistics rbi gti = ([], gti) := by
            simp [write_batch_statistics, hm]
          have h := ih (i + 1) (tl + x / (s.batch_size_divider : ℚ)) 0
            (rbi + 1) gti
          obtain ⟨h1, h2⟩ := h
          simp only [train_loop_go, hc, if_true, hw, hwbs]
          rw [reportSteps_segment]
          exact ⟨h1, by rw [h2]; rfl⟩
      · have h := ih (i + 1) (tl + x / (s.batch_size_divider : ℚ)) 0
          (rbi + 1) gti
        obtain ⟨h1, h2⟩ := h
        simp only [train_loop_go, hc, if_true, hw, Bool.false_eq_true,
          if_false]
        rw [reportSteps_segment]
        exact ⟨h1, by rw [h2]; rfl⟩
    · have h := ih (i + 1) (tl + x / (s.batch_size_divider : ℚ))
        (bl + x / (s.batch_size_divider : ℚ)) rbi gti
      obtain ⟨h1, h2⟩ := h
      simp only [train_loop_go, hc, Bool.false_eq_true, if_false]
      rw [reportSteps_cons_of_not (Event.backward i) _ rfl]
      exact ⟨h1, h2⟩

theorem train_loop_go_filter (s : Settings) (N : Nat) (l : List ℚ) :
    ∀ (i : Nat) (tl bl : ℚ) (rbi gti : Nat),
      ((train_loop_go s N l i tl bl rbi gti).trace).filter
          (fun e => !isReport e)
        = gradSeq s N i l.length := by
  induction l with
  | nil => intro i tl bl rbi gti; simp [train_loop_go, gradSeq]
  | cons x rest ih =>
    intro i tl bl rbi gti
    by_cases hc : groupCloses s.batch_size_divider N i
    · by_cases hw : s.write_statistics
      · by_cases hm : rbi % 100 == 0
        · have hwbs : write_batch_statistics rbi gti
              = ([Event.report rbi gti], gti + 1) := by
            simp [write_batch_statistics, hm]
          have h2 := ih (i + 1) (tl + x / (s.batch_size_divider : ℚ)) 0
            (rbi + 1) (gti + 1)
          simp only [train_loop_go, hc, if_true, hw, hwbs]
          simp [List.filter_cons, List.filter_append, gradSeq, hc, h2]
        · have hwbs : write_batch_statistics rbi gti = ([], gti) := by
            simp [write_batch_statistics, hm]
          have h2 := ih (i + 1) (tl + x / (s.batch_size_divider : ℚ)) 0
            (rbi + 1) gti
          simp only [train_loop_go, hc, if_true, hw, hwbs]
          simp [List.filter_cons, List.filter_append, gradSeq, hc, h2]
      · have h2 := ih (i + 1) (tl + x / (s.batch_size_divider : ℚ)) 0
          (rbi + 1) gti
        simp only [train_loop_go, hc, if_true, hw, Bool.false_eq_true,
          if_false]
        simp [List.filter_cons, List.filter_append, gradSeq, hc, h2]
    · have h2 := ih (i + 1) (tl + x / (s.batch_size_divider : ℚ))
        (bl + x / (s.batch_size_divider : ℚ)) rbi gti
      simp only [train_loop_go, hc, Bool.false_eq_true, if_false]
      simp [List.filter_cons, gradSeq, hc, h2]

theorem gradSeq_countP (s : Settings) (N : Nat) :
    ∀ (n i : Nat), (gradSeq s N i n).countP isStep
      = countClosesFrom s.batch_size_divider N i n := by
  intro n
  induction n with
  | zero => intro i; simp [gradSeq, countClosesFrom]
  | succ n ih =>
    intro i
    by_cases hc : groupCloses s.batch_size_divider N i
    · simp [gradSeq, countClosesFrom, hc, List.countP_cons,
        List.countP_append, ih]
      omega
    · simp [gradSeq, countClosesFrom, hc, List.countP_cons, ih]

theorem train_loop_go_countP (s : Settings) (N : Nat) (l : List ℚ)
    (i : Nat) (tl bl : ℚ) (rbi gti : Nat) :
    ((train_loop_go s N l i tl bl rbi gti).trace).countP isStep
      = countClosesFrom s.batch_size_divider N i l.length := by
  have hfun : (fun a => isStep a && !isReport a) = isStep := by
    funext a; cases a <;> rfl
  have h1 := congrArg (List.countP isStep)
    (train_loop_go_filter s N l i tl bl rbi gti)
  rw [List.countP_filter, hfun] at h1
  rw [h1, gradSeq_countP]

theorem cleared_cons (e : Event) (l : List Event) (h : isStep e = false) :
    stepsImmediatelyCleared (e :: l) = stepsImmediatelyCleared l := by
  cases l with
  | nil => simp [stepsImmediatelyCleared, h]
  | cons y ys => simp [stepsImmediatelyCleared, h]

theorem cleared_step_zero (s : Settings) (l : List Event) :
    stepsImmediatelyCleared (stepEv s :: Event.zeroGrad :: l)
      = stepsImmediatelyCleared l := by
  have h1 : stepsImmediatelyCleared (stepEv s :: Event.zeroGrad :: l)
      = stepsImmediatelyCleared (Event.zeroGrad :: l) := by
    simp [stepsImmediatelyCleared]
  rw [h1, cleared_cons Event.zeroGrad l rfl]

theorem train_loop_go_cleared (s : Settings) (N : Nat) (l : List ℚ) :
    ∀ (i : Nat) (tl bl : ℚ) (rbi gti : Nat),
      stepsImmediatelyCleared (train_loop_go s N l i tl bl rbi gti).trace
        = true := by
  induction l with
  | nil => intro i tl bl rbi gti; simp [train_loop_go, stepsImmediatelyCleared]
  | cons x rest ih =>
    intro i tl bl rbi gti
    by_cases hc : groupCloses s.batch_size_divider N i
    · by_cases hw : s.write_statistics
      · by_cases hm : rbi % 100 == 0
        · have hwbs : write_batch_statistics rbi gti
              = ([Event.report rbi gti], gti + 1) := by
            simp [write_batch_statistics, hm]
          simp only [train_loop_go, hc, if_true, hw, hwbs,
            List.cons_append, List.nil_append]
          rw [cleared_cons (Event.backward i) _ rfl,
            cleared_cons (Event.report rbi gti) _ rfl, cleared_step_zero]
          exact ih (i + 1) (tl + x / (s.batch_size_divider : ℚ)) 0
            (rbi + 1) (gti + 1)
        · have hwbs : write_batch_statistics rbi gti = ([], gti) := by
            simp [write_batch_statistics, hm]
          simp only [train_loop_go, hc, if_true, hw, hwbs,
            List.nil_append]
          rw [cleared_cons (Event.backward i) _ rfl, cleared_step_zero]
          exact ih (i + 1) (tl + x / (s.batch_size_divider : ℚ)) 0
            (rbi + 1) gti
      · simp only [train_loop_go, hc, if_true, hw, Bool.false_eq_true,
          if_false, List.nil_append]
        rw [cleared_cons (Event.backward i) _ rfl, cleared_step_zero]
        exact ih (i + 1) (tl + x / (s.batch_size_divider : ℚ)) 0
          (rbi + 1) gti
    · simp only [train_loop_go, hc, Bool.false_eq_true, if_false]
      rw [cleared_cons (Event.backward i) _ rfl]
      exact ih (i + 1) (tl + x / (s.batch_size_divider : ℚ))
        (bl + x / (s.batch_size_divider : ℚ)) rbi gti

theorem reportCommits_append (a b : List Event) :
    reportCommits (a ++ b) = reportCommits a ++ reportCommits b := by
  induction a with
  | nil => rfl
  | cons e rest ih => cases e <;> simp [reportCommits, ih]

theorem reportCommits_segment (s : Settings) (i : Nat) (sg1 tr : List Event) :
    reportCommits
        (Event.backward i :: (sg1 ++ stepEv s :: Event.zeroGrad :: tr))
      = reportCommits sg1 ++ reportCommits tr := by
  rw [reportCommits_cons_of_not (Event.backward i) _ rfl,
    reportCommits_append,
    reportCommits_cons_of_not (stepEv s) _ (isReport_stepEv s),
    reportCommits_cons_of_not Event.zeroGrad _ rfl]

theorem train_loop_go_reportCommits (s : Settings) (N : Nat)
    (hw : s.write_statistics = true) (l : List ℚ) :
    ∀ (i : Nat) (tl bl : ℚ) (rbi gti : Nat),
      reportCommits (train_loop_go s N l i tl bl rbi gti).trace
        = reportCommitsFrom rbi
            (countClosesFrom s.batch_size_divider N i l.length) := by
  induction l with
  | nil =>
    intro i tl bl rbi gti
    simp [train_loop_go, reportCommits, countClosesFrom, reportCommitsFrom]
  | cons x rest ih =>
    intro i tl bl rbi gti
    by_cases hc : groupCloses s.batch_size_divider N i
    · by_cases hm : rbi % 100 == 0
      · have hwbs : write_batch_statistics rbi gti
            = ([Event.report rbi gti], gti + 1) := by
          simp [write_batch_statistics, hm]
        have h2 := ih (i + 1) (tl + x / (s.batch_size_divider : ℚ)) 0
          (rbi + 1) (gti + 1)
        simp only [train_loop_go, hc, if_true, hw, hwbs]
        rw [reportCommits_segment]
        simp only [List.length_cons, countClosesFrom, hc, if_true,
          Nat.add_comm 1 (countClosesFrom s.batch_size_divider N (i + 1)
            rest.length), reportCommitsFrom, hm]
        simp [reportCommits, h2]
      · have hwbs : write_batch_statistics rbi gti = ([], gti) := by
          simp [write_batch_statistics, hm]
        have h2 := ih (i + 1) (tl + x / (s.batch_size_divider : ℚ)) 0
          (rbi + 1) gti
        simp only [train_loop_go, hc, if_true, hw, hwbs]
        rw [reportCommits_segment]
        simp only [List.length_cons, countClosesFrom, hc, if_true,
          Nat.add_comm 1 (countClosesFrom s.batch_size_divider N (i + 1)
            rest.length), reportCommitsFrom, hm]
        simp [reportCommits, h2]
    · have h2 := ih (i + 1) (tl + x / (s.batch_size_divider : ℚ))
        (bl + x / (s.batch_size_divider : ℚ)) rbi gti
      simp only [train_loop_go, hc, Bool.false_eq_true, if_false]
      rw [reportCommits_cons_of_not (Event.backward i) _ rfl]
      simp [countClosesFrom, hc, h2]

theorem consecFrom_eq_range (n : Nat) : ∀ (a : Nat),
    consecFrom a n = List.range' a n := by
  induction n with
  | zero => intro a; rfl
  | succ n ih => intro a; rw [List.range'_succ]; simp [consecFrom, ih]

theorem reportCommitsFrom_eq_filter (k : Nat) : ∀ (c : Nat),
    reportCommitsFrom c k
      = (List.range' c k).filter (fun x => x % 100 == 0) := by
  induction k with
  | zero => intro c; rfl
  | succ k ih =>
    intro c
    rw [List.range'_succ]
    by_cases hm : c % 100 == 0 <;>
      simp [reportCommitsFrom, hm, ih, List.filter_cons]

theorem test_loop_go_bn (d lt : Nat) (l : List (ℚ × ℚ)) :
    ∀ (i : Nat) (tl f1 : ℚ) (bn : Nat),
      (test_loop_go d lt l i tl f1 bn).batches_num
        = bn + countClosesFrom d lt i l.length := by
  induction l with
  | nil => intro i tl f1 bn; simp [test_loop_go, countClosesFrom]
  | cons b rest ih =>
    intro i tl f1 bn
    by_cases hc : groupCloses d lt i
    · simp only [test_loop_go, hc, if_true, ih, List.length_cons,
        countClosesFrom]
      omega
    · simp only [test_loop_go, hc, Bool.false_eq_true, if_false, ih,
        List.length_cons, countClosesFrom]
      simp [hc]

theorem test_loop_go_f1 (d lt : Nat) (l : List (ℚ × ℚ)) :
    ∀ (i : Nat) (tl f1 : ℚ) (bn : Nat),
      (test_loop_go d lt l i tl f1 bn).f1
        = f1 + (l.map (fun b => b.2 / (d : ℚ))).sum := by
  induction l with
  | nil => intro i tl f1 bn; simp [test_loop_go]
  | cons b rest ih =>
    intro i tl f1 bn
    simp only [test_loop_go, ih, List.map_cons, List.sum_cons]
    ring

theorem test_loop_go_loss (d lt : Nat) (l : List (ℚ × ℚ)) :
    ∀ (i : Nat) (tl f1 : ℚ) (bn : Nat),
      (test_loop_go d lt l i tl f1 bn).test_loss
        = tl + (l.map (fun b => b.1 / (d : ℚ))).sum := by
  induction l with
  | nil => intro i tl f1 bn; simp [test_loop_go]
  | cons b rest ih =>
    intro i tl f1 bn
    simp only [test_loop_go, ih, List.map_cons, List.sum_cons]
    ring

theorem countClosesFrom_pos (d N : Nat) :
    ∀ (n i : Nat), i + n = N → 1 ≤ n → 1 ≤ countClosesFrom d N i n := by
  intro n
  induction n with
  | zero => intro i _ h1; omega
  | succ n ih =>
    intro i hiN _
    cases n with
    | zero =>
      have hcl : groupCloses d N i = true := by
        simp only [groupCloses, Bool.or_eq_true, beq_iff_eq]
        right
        omega
      simp [countClosesFrom, hcl]
    | succ m =>
      have h := ih (i + 1) (by omega) (by omega)
      rw [countClosesFrom]
      by_cases hcl : groupCloses d N i <;> simp [hcl]
      omega

theorem train_loop_empty (s : Settings) (gti : Nat) :
    train_loop s [] gti = Except.error PyErr.zeroDivisionError := rfl

theorem train_loop_eq (s : Settings) (losses : List ℚ) (gti : Nat)
    (h : losses ≠ []) :
    train_loop s losses gti = Except.ok
      ((losses.map (fun x => x / (s.batch_size_divider : ℚ))).sum
          / (countClosesFrom s.batch_size_divider losses.length 0
              losses.length : ℚ),
        (train_loop_go s losses.length losses 0 0 0 0 gti).global_train_index,
        (train_loop_go s losses.length losses 0 0 0 0 gti).trace) := by
  have hrbi := train_loop_go_rbi s losses.length losses 0 0 0 0 gti
  have hloss := train_loop_go_loss s losses.length losses 0 0 0 0 gti
  have hlen : 1 ≤ losses.length := by
    cases losses with
    | nil => exact absurd rfl h
    | cons a l => simp
  have hpos : 1 ≤ countClosesFrom s.batch_size_divider losses.length 0
      losses.length :=
    countClosesFrom_pos s.batch_size_divider losses.length losses.length 0
      (by omega) hlen
  simp only [train_loop, hrbi, hloss, Nat.zero_add, zero_add]
  rw [if_neg (by omega)]

theorem train_loop_ok_parts (s : Settings) (losses : List ℚ) (gti : Nat)
    (v : ℚ × Nat × List Event) (h : train_loop s losses gti = Except.ok v) :
    losses ≠ [] ∧
    v = ((losses.map (fun x => x / (s.batch_size_divider : ℚ))).sum
          / (countClosesFrom s.batch_size_divider losses.length 0
              losses.length : ℚ),
        (train_loop_go s losses.length losses 0 0 0 0 gti).global_train_index,
        (train_loop_go s losses.length losses 0 0 0 0 gti).trace) := by
  have hne : losses ≠ [] := by
    intro hnil
    subst hnil
    rw [train_loop_empty] at h
    exact Except.noConfusion h
  rw [train_loop_eq s losses gti hne] at h
  exact ⟨hne, (Except.ok.inj h).symm⟩

theorem test_loop_err (d lt : Nat) (batches : List (ℚ × ℚ)) (f0 : ℚ)
    (h : countClosesFrom d lt 0 batches.length = 0) :
    test_loop d lt batches f0 = Except.error PyErr.zeroDivisionError := by
  have hbn := test_loop_go_bn d lt batches 0 0 f0 0
  simp only [test_loop, hbn, Nat.zero_add, h]
  rfl

theorem test_loop_eq (d lt : Nat) (batches : List (ℚ × ℚ)) (f0 : ℚ)
    (h : countClosesFrom d lt 0 batches.length ≠ 0) :
    test_loop d lt batches f0 = Except.ok
      ((batches.map (fun b => b.1 / (d : ℚ))).sum
          / (countClosesFrom d lt 0 batches.length : ℚ),
        countClosesFrom d lt 0 batches.length,
        f0 + (batches.map (fun b => b.2 / (d : ℚ))).sum) := by
  have hbn := test_loop_go_bn d lt batches 0 0 f0 0
  have hf1 := test_loop_go_f1 d lt batches 0 0 f0 0
  have hls := test_loop_go_loss d lt batches 0 0 f0 0
  simp only [test_loop, hbn, hf1, hls, Nat.zero_add, zero_add]
  rw [if_neg h]

theorem test_loop_ok_parts (d lt : Nat) (batches : List (ℚ × ℚ)) (f0 : ℚ)
    (v : ℚ × Nat × ℚ) (h : test_loop d lt batches f0 = Except.ok v) :
    countClosesFrom d lt 0 batches.length ≠ 0 ∧
    v = ((batches.map (fun b => b.1 / (d : ℚ))).sum
          / (countClosesFrom d lt 0 batches.length : ℚ),
        countClosesFrom d lt 0 batches.length,
        f0 + (batches.map (fun b => b.2 / (d : ℚ))).sum) := by
  by_cases hz : countClosesFrom d lt 0 batches.length = 0
  · rw [test_loop_err d lt batches f0 hz] at h
    exact Except.noConfusion h
  · rw [test_loop_eq d lt batches f0 hz] at h
    exact ⟨hz, (Except.ok.inj h).symm⟩

theorem consecFrom_append (a m n : Nat) :
    consecFrom a m ++ consecFrom (a + m) n = consecFrom a (m + n) := by
  induction m generalizing a with
  | zero => simp [consecFrom]
  | succ m ih =>
    have h1 : a + (m + 1) = (a + 1) + m := by omega
    have h2 : m + 1 + n = (m + n) + 1 := by omega
    rw [h1, h2]
    simp only [consecFrom, List.cons_append, ih (a + 1)]

theorem run_epoch_ok_parts (s : Settings) (trl : List ℚ)
    (tsb : List (ℚ × ℚ)) (e : Int) (gti : Nat) (o : EpochOut) (g' : Nat)
    (h : run_epoch s trl tsb e gti = Except.ok (o, g')) :
    o.epoch = e ∧ o.saved_checkpoint = e ∧
    o.trace = (train_loop_go s trl.length trl 0 0 0 0 gti).trace ∧
    g' = (train_loop_go s trl.length trl 0 0 0 0 gti).global_train_index ∧
    o.f1 = (tsb.map (fun b => b.2 / (s.batch_size_divider : ℚ))).sum
        / (countClosesFrom s.batch_size_divider trl.length 0
            tsb.length : ℚ) ∧
    o.train_loss = (trl.map (fun x => x / (s.batch_size_divider : ℚ))).sum
        / (countClosesFrom s.batch_size_divider trl.length 0
            trl.length : ℚ) ∧
    o.test_loss = (tsb.map (fun b => b.1 / (s.batch_size_divider : ℚ))).sum
        / (countClosesFrom s.batch_size_divider trl.length 0
            tsb.length : ℚ) := by
  unfold run_epoch at h
  cases htl : train_loop s trl gti with
  | error err => rw [htl] at h; simp [Bind.bind, Except.bind] at h
  | ok tl =>
    rw [htl] at h
    cases hts : test_loop s.batch_size_divider trl.length tsb 0 with
    | error err => rw [hts] at h; simp [Bind.bind, Except.bind] at h
    | ok te =>
      rw [hts] at h
      simp only [Bind.bind, Except.bind, pure, Except.pure,
        Except.ok.injEq, Prod.mk.injEq] at h
      obtain ⟨ho, hg⟩ := h
      obtain ⟨-, htlv⟩ := train_loop_ok_parts s trl gti tl htl
      obtain ⟨-, htev⟩ := test_loop_ok_parts s.batch_size_divider
        trl.length tsb 0 te hts
      subst htlv htev
      subst hg
      rw [← ho]
      simp

theorem train_epochs_ok_parts (s : Settings) (td : Int → List ℚ)
    (tsd : Int → List (ℚ × ℚ)) :
    ∀ (es : List Int) (gti : Nat) (outs : List EpochOut) (g : Nat),
      train_epochs s td tsd es gti = Except.ok (outs, g) →
      outs.map EpochOut.epoch = es ∧
      outs.map EpochOut.saved_checkpoint = es ∧
      (∀ o ∈ outs,
        o.f1 = ((tsd o.epoch).map
            (fun b => b.2 / (s.batch_size_divider : ℚ))).sum
          / (countClosesFrom s.batch_size_divider (td o.epoch).length 0
              (tsd o.epoch).length : ℚ)) ∧
      gti ≤ g ∧
      reportSteps (runTrace outs) = consecFrom gti (g - gti) := by
  intro es
  induction es with
  | nil =>
    intro gti outs g h
    simp only [train_epochs, Except.ok.injEq, Prod.mk.injEq] at h
    obtain ⟨h1, h2⟩ := h
    subst h1 h2
    simp [runTrace, reportSteps, consecFrom]
  | cons e rest ih =>
    intro gti outs g h
    simp only [train_epochs] at h
    cases hr : run_epoch s (td e) (tsd e) e gti with
    | error err => rw [hr] at h; simp [Bind.bind, Except.bind] at h
    | ok v =>
      rw [hr] at h
      simp only [Bind.bind, Except.bind] at h
      cases hts : train_epochs s td tsd rest v.2 with
      | error err => rw [hts] at h; simp [Bind.bind, Except.bind] at h
      | ok w =>
        rw [hts] at h
        simp only [Bind.bind, Except.bind, pure, Except.pure,
          Except.ok.injEq, Prod.mk.injEq] at h
        obtain ⟨ho, hg⟩ := h
        obtain ⟨ihe, ihs, ihf, ihle, ihsteps⟩ :=
          ih v.2 w.1 w.2 (by exact hts)
        obtain ⟨he, hsc, htr, hg', hf1, -, -⟩ :=
          run_epoch_ok_parts s (td e) (tsd e) e gti v.1 v.2
            (by exact hr)
        subst ho hg
        refine ⟨by simp [ihe, he], by simp [ihs, hsc], ?_, ?_, ?_⟩
        · intro o hmem
          rcases List.mem_cons.mp hmem with hov | hor
          · subst hov
            rw [he]
            exact hf1
          · exact ihf o hor
        · have hmono := (train_loop_go_gti_steps s (td e).length (td e)
            0 0 0 0 gti).1
          rw [← hg'] at hmono
          omega
        · have hsteps := (train_loop_go_gti_steps s (td e).length (td e)
            0 0 0 0 gti).2
          have hmono := (train_loop_go_gti_steps s (td e).length (td e)
            0 0 0 0 gti).1
          rw [← hg'] at hsteps hmono
          rw [← htr] at hsteps
          simp only [runTrace, reportSteps_append, hsteps, ihsteps]
          have hap := consecFrom_append gti (v.2 - gti) (w.2 - v.2)
          rw [show gti + (v.2 - gti) = v.2 from by omega] at hap
          rw [show v.2 - gti + (w.2 - v.2) = w.2 - gti from by omega] at hap
          exact hap

theorem consecFrom_length (n : Nat) : ∀ (a : Nat),
    (consecFrom a n).length = n := by
  induction n with
  | zero => intro a; rfl
  | succ n ih => intro a; simp [consecFrom, ih]

theorem reportCommits_length_eq (l : List Event) :
    (reportCommits l).length = (reportSteps l).length := by
  induction l with
  | nil => rfl
  | cons e rest ih => cases e <;> simp [reportCommits, reportSteps, ih]

theorem train_ok_parts (s : Settings) (prev : Int) (td : Int → List ℚ)
    (tsd : Int → List (ℚ × ℚ)) (outs : List EpochOut) (g : Nat)
    (h : train s prev td tsd = Except.ok (outs, g)) :
    outs.map EpochOut.epoch
        = (List.range s.epochs).map (fun k => start_epoch_of prev + Int.ofNat k)
    ∧ outs.map EpochOut.saved_checkpoint
        = (List.range s.epochs).map (fun k => start_epoch_of prev + Int.ofNat k)
    ∧ (∀ o ∈ outs,
        o.f1 = ((tsd o.epoch).map
            (fun b => b.2 / (s.batch_size_divider : ℚ))).sum
          / (countClosesFrom s.batch_size_divider (td o.epoch).length 0
              (tsd o.epoch).length : ℚ))
    ∧ reportSteps (runTrace outs) = List.range g := by
  obtain ⟨he, hs, hf, -, hsteps⟩ := train_epochs_ok_parts s td tsd
    ((List.range s.epochs).map (fun k => start_epoch_of prev + Int.ofNat k))
    0 outs g h
  refine ⟨he, hs, hf, ?_⟩
  rw [hsteps, Nat.sub_zero, consecFrom_eq_range, ← List.range_eq_range']

theorem train_wit_fresh :
    train sWit (-1) tdWit tsWit = Except.ok (outsWit, 1) := by
  norm_num [train, train_epochs, run_epoch, train_loop, train_loop_go,
    test_loop, test_loop_go, write_batch_statistics, groupCloses, stepEv,
    sWit, tdWit, tsWit, outsWit, start_epoch_of, countClosesFrom,
    Bind.bind, Except.bind, pure, Except.pure]

theorem train_wit_resumed :
    train sWit 5 tdWit tsWit = Except.ok (outsWitResumed, 1) := by
  norm_num [train, train_epochs, run_epoch, train_loop, train_loop_go,
    test_loop, test_loop_go, write_batch_statistics, groupCloses, stepEv,
    sWit, tdWit, tsWit, outsWitResumed, start_epoch_of, countClosesFrom,
    Bind.bind, Except.bind, pure, Except.pure]

/-! Claim theorems. -/

/-- C1: In every training epoch with `N ≥ 1` micro-batches and divider
`d ≥ 1`, an accumulation group closes at micro-batch index `i` exactly when
`(i+1) % d == 0` or `i+1 == N`, and the returned epoch training loss equals
the sum of the `N` micro-batch losses each divided by `d`, divided by the
number of groups closed; with `d = 4` and 10 micro-batches of loss 1,
groups close at indices 3, 7, 9 and the epoch loss is `(10 * 1/4) / 3`. -/
theorem claim_C1 (s : Settings) (losses : List ℚ) (gti : Nat)
    (hN : losses ≠ []) (_hd : 1 ≤ s.batch_size_divider) :
    (∀ i, groupCloses s.batch_size_divider losses.length i
        = (((i + 1) % s.batch_size_divider == 0)
            || (i + 1 == losses.length)))
    ∧ train_loop s losses gti = Except.ok
        ((losses.map (fun x => x / (s.batch_size_divider : ℚ))).sum
            / (countClosesFrom s.batch_size_divider losses.length 0
                losses.length : ℚ),
          (train_loop_go s losses.length losses 0 0 0 0
            gti).global_train_index,
          (train_loop_go s losses.length losses 0 0 0 0 gti).trace)
    ∧ (List.range 10).filter (fun i => groupCloses 4 10 i) = [3, 7, 9]
    ∧ ((List.replicate 10 (1 : ℚ)).map
          (fun x => x / ((4 : Nat) : ℚ))).sum
        / (countClosesFrom 4 10 0 10 : ℚ) = (10 * ((1 : ℚ) / 4)) / 3 := by
  refine ⟨fun i => rfl, train_loop_eq s losses gti hN, by decide, ?_⟩
  have h3 : countClosesFrom 4 10 0 10 = 3 := by decide
  rw [h3, List.map_replicate, List.sum_replicate]
  norm_num

/-- Witness for C1 at the spec's scenario: divider 4, 10 micro-batches of
loss 1. -/
theorem claim_C1_witness :
    (List.replicate 10 (1 : ℚ) ≠ [] ∧
      1 ≤ (4 : Nat))
    ∧ ((∀ i, groupCloses 4 (List.replicate 10 (1 : ℚ)).length i
        = (((i + 1) % 4 == 0)
            || (i + 1 == (List.replicate 10 (1 : ℚ)).length)))
    ∧ train_loop ⟨8, 4, false, false, 1⟩ (List.replicate 10 (1 : ℚ)) 0
        = Except.ok
        (((List.replicate 10 (1 : ℚ)).map
              (fun x => x / ((4 : Nat) : ℚ))).sum
            / (countClosesFrom 4 (List.replicate 10 (1 : ℚ)).length 0
                (List.replicate 10 (1 : ℚ)).length : ℚ),
          (train_loop_go ⟨8, 4, false, false, 1⟩
            (List.replicate 10 (1 : ℚ)).length (List.replicate 10 (1 : ℚ))
            0 0 0 0 0).global_train_index,
          (train_loop_go ⟨8, 4, false, false, 1⟩
            (List.replicate 10 (1 : ℚ)).length (List.replicate 10 (1 : ℚ))
            0 0 0 0 0).trace)
    ∧ (List.range 10).filter (fun i => groupCloses 4 10 i) = [3, 7, 9]
    ∧ ((List.replicate 10 (1 : ℚ)).map
          (fun x => x / ((4 : Nat) : ℚ))).sum
        / (countClosesFrom 4 10 0 10 : ℚ) = (10 * ((1 : ℚ) / 4)) / 3) :=
  ⟨⟨by decide, by decide⟩,
    claim_C1 ⟨8, 4, false, false, 1⟩ (List.replicate 10 (1 : ℚ)) 0
      (by decide) (by decide)⟩

/-- C3: In every training epoch, the orchestrator commits exactly one
optimizer step per closed accumulation group (`scaler.step` under amp,
`optimizer.step` otherwise), clears all gradients immediately after each
commit and before any micro-batch of the next group, and commits no step
at a micro-batch that does not close a group: the instrumentation-free
trace is precisely one `backward` per micro-batch with a commit followed
by a gradient clear exactly at the closing micro-batches. -/
theorem claim_C3 (s : Settings) (losses : List ℚ) (gti : Nat) :
    ((train_loop_go s losses.length losses 0 0 0 0 gti).trace).filter
        (fun e => !isReport e)
      = gradSeq s losses.length 0 losses.length
    ∧ ((train_loop_go s losses.length losses 0 0 0 0 gti).trace).countP
        isStep
      = countClosesFrom s.batch_size_divider losses.length 0 losses.length
    ∧ stepsImmediatelyCleared
        (train_loop_go s losses.length losses 0 0 0 0 gti).trace = true :=
  ⟨train_loop_go_filter s losses.length losses 0 0 0 0 gti,
    train_loop_go_countP s losses.length losses 0 0 0 0 gti,
    train_loop_go_cleared s losses.length losses 0 0 0 0 gti⟩

/-- C4: Whenever the evaluation loop's closed-group counter `batches_num`
ends at zero, the final division of the accumulated test loss by
`batches_num` raises Python's defined `ZeroDivisionError` (no `inf`/`NaN`
result); the accumulated F1 is divided only after `test_loop` returns, so
it is likewise never divided by zero. -/
theorem claim_C4 (d lt : Nat) (batches : List (ℚ × ℚ)) (f0 : ℚ)
    (h : countClosesFrom d lt 0 batches.length = 0) :
    (test_loop_go d lt batches 0 0 f0 0).batches_num = 0
    ∧ test_loop d lt batches f0 = Except.error PyErr.zeroDivisionError :=
  ⟨by rw [test_loop_go_bn]; omega, test_loop_err d lt batches f0 h⟩

/-- Witness for C4: divider 4, training-loader length 10, two evaluation
micro-batches — no group boundary is reached, so `batches_num = 0` and
`test_loop` raises. -/
theorem claim_C4_witness :
    countClosesFrom 4 10 0 ([((1 : ℚ), (1 : ℚ)), (1, 1)]).length = 0
    ∧ ((test_loop_go 4 10 [((1 : ℚ), (1 : ℚ)), (1, 1)] 0 0 0 0).batches_num
        = 0
      ∧ test_loop 4 10 [((1 : ℚ), (1 : ℚ)), (1, 1)] 0
        = Except.error PyErr.zeroDivisionError) :=
  ⟨by decide, claim_C4 4 10 [((1 : ℚ), (1 : ℚ)), (1, 1)] 0 (by decide)⟩

/-- C5: The evaluation loop's `batches_num` counter increments at
micro-batch index `i` exactly when `(i+1) % d == 0` or `i+1` equals the
length of the *training* dataloader, so when the two dataloaders' lengths
differ it can undercount (here 0 counted vs 1 actual evaluation group) or
overcount (here 2 counted vs 1 actual) the evaluation groups. -/
theorem claim_C5 :
    (∀ (d lt : Nat) (batches : List (ℚ × ℚ)) (f0 : ℚ),
      (test_loop_go d lt batches 0 0 f0 0).batches_num
        = countClosesFrom d lt 0 batches.length)
    ∧ (∀ d lt i, groupCloses d lt i
        = (((i + 1) % d == 0) || (i + 1 == lt)))
    ∧ (test_loop_go 4 10 [((1 : ℚ), (1 : ℚ)), (1, 1)] 0 0 0 0).batches_num
        < countClosesFrom 4 2 0 2
    ∧ countClosesFrom 4 4 0 4
        < (test_loop_go 4 2
            [((1 : ℚ), (1 : ℚ)), (1, 1), (1, 1), (1, 1)] 0 0 0 0).batches_num := by
  refine ⟨fun d lt batches f0 => ?_, fun d lt i => rfl, by decide, by decide⟩
  rw [test_loop_go_bn]
  omega

/-- C10: When the training dataloader yields zero micro-batches in an
epoch, `real_batch_index` stays 0 and the final division of the epoch loss
accumulator by it raises `ZeroDivisionError`: the training loop has no
guard before its final division. -/
theorem claim_C10 (s : Settings) (gti : Nat) :
    (train_loop_go s 0 [] 0 0 0 0 gti).real_batch_index = 0
    ∧ train_loop s [] gti = Except.error PyErr.zeroDivisionError :=
  ⟨rfl, train_loop_empty s gti⟩

/-- C2: A `train` call that loads a checkpoint for epoch `e ≥ 0` executes
epochs `e+1, …, e+E` (where `E` is the `epochs` setting) and saves one
checkpoint per executed epoch, at those same indices; with the negative
no-checkpoint sentinel it executes epochs `0, …, E-1`. -/
theorem claim_C2 (s : Settings) (prev : Int) (td : Int → List ℚ)
    (tsd : Int → List (ℚ × ℚ)) (outs : List EpochOut) (g : Nat)
    (h : train s prev td tsd = Except.ok (outs, g)) :
    outs.length = s.epochs
    ∧ outs.map EpochOut.epoch
        = (List.range s.epochs).map (fun k => start_epoch_of prev + Int.ofNat k)
    ∧ outs.map EpochOut.saved_checkpoint = outs.map EpochOut.epoch
    ∧ (0 ≤ prev → outs.map EpochOut.epoch
        = (List.range s.epochs).map (fun k => prev + 1 + Int.ofNat k))
    ∧ (prev < 0 → outs.map EpochOut.epoch
        = (List.range s.epochs).map (fun k => Int.ofNat k)) := by
  obtain ⟨he, hs, -, -⟩ := train_ok_parts s prev td tsd outs g h
  refine ⟨?_, he, hs.trans he.symm, ?_, ?_⟩
  · have hlen := congrArg List.length he
    rwa [List.length_map, List.length_map, List.length_range] at hlen
  · intro hp
    rw [he]
    have hse : start_epoch_of prev = prev + 1 := if_pos hp
    rw [hse]
  · intro hp
    rw [he]
    have hse : start_epoch_of prev = 0 := if_neg (by omega)
    rw [hse]
    simp

/-- Witness for C2: a one-epoch run resumed from a checkpoint at epoch 5
executes and checkpoints exactly epoch 6. -/
theorem claim_C2_witness :
    train sWit 5 tdWit tsWit = Except.ok (outsWitResumed, 1)
    ∧ (outsWitResumed.length = sWit.epochs
    ∧ outsWitResumed.map EpochOut.epoch
        = (List.range sWit.epochs).map (fun k => start_epoch_of 5 + Int.ofNat k)
    ∧ outsWitResumed.map EpochOut.saved_checkpoint
        = outsWitResumed.map EpochOut.epoch
    ∧ (0 ≤ (5 : Int) → outsWitResumed.map EpochOut.epoch
        = (List.range sWit.epochs).map (fun k => 5 + 1 + Int.ofNat k))
    ∧ ((5 : Int) < 0 → outsWitResumed.map EpochOut.epoch
        = (List.range sWit.epochs).map (fun k => Int.ofNat k))) :=
  ⟨train_wit_resumed,
    claim_C2 sWit 5 tdWit tsWit outsWitResumed 1 train_wit_resumed⟩

/-- C6: With `write_statistics` enabled, instrumentation is emitted at an
accumulation-group commit exactly when the commit index is divisible by
100 (commits 0, 100, 200, …) and at no other commit or micro-batch, and
`global_train_index` grows by exactly one per emission, independently of
the epoch (it is threaded, not reset, through the loop). -/
theorem claim_C6 (s : Settings) (hw : s.write_statistics = true)
    (losses : List ℚ) (gti : Nat) :
    reportCommits (train_loop_go s losses.length losses 0 0 0 0 gti).trace
      = (List.range (countClosesFrom s.batch_size_divider losses.length 0
          losses.length)).filter (fun c => c % 100 == 0)
    ∧ (train_loop_go s losses.length losses 0 0 0 0
        gti).global_train_index
      = gti + (reportCommits
          (train_loop_go s losses.length losses 0 0 0 0 gti).trace).length := by
  have h1 := train_loop_go_reportCommits s losses.length hw losses
    0 0 0 0 gti
  constructor
  · rw [h1, reportCommitsFrom_eq_filter, ← List.range_eq_range']
  · obtain ⟨hmono, hsteps⟩ := train_loop_go_gti_steps s losses.length
      losses 0 0 0 0 gti
    have hlen := congrArg List.length hsteps
    rw [consecFrom_length] at hlen
    rw [reportCommits_length_eq, hlen]
    omega

/-- Witness for C6: one micro-batch with divider 1 and statistics on —
commit 0 reports (0 is divisible by 100) and the step counter advances
from 0 to 1. -/
theorem claim_C6_witness :
    sWit.write_statistics = true
    ∧ (reportCommits
        (train_loop_go sWit ([(1 : ℚ)]).length [(1 : ℚ)] 0 0 0 0 0).trace
      = (List.range (countClosesFrom sWit.batch_size_divider
          ([(1 : ℚ)]).length 0 ([(1 : ℚ)]).length)).filter
          (fun c => c % 100 == 0)
    ∧ (train_loop_go sWit ([(1 : ℚ)]).length [(1 : ℚ)] 0 0 0 0
        0).global_train_index
      = 0 + (reportCommits
          (train_loop_go sWit ([(1 : ℚ)]).length [(1 : ℚ)] 0 0 0 0
            0).trace).length) :=
  ⟨rfl, claim_C6 sWit rfl [(1 : ℚ)] 0⟩

/-- C7: The epoch F1 accumulator is reset to zero before every epoch's
evaluation pass, each evaluation micro-batch adds its F1 metric divided by
`batch_size_divider`, and the reported epoch F1 is that sum divided by the
`batches_num` counter — so it never depends on earlier epochs. -/
theorem claim_C7 (s : Settings) (prev : Int) (td : Int → List ℚ)
    (tsd : Int → List (ℚ × ℚ)) (outs : List EpochOut) (g : Nat)
    (h : train s prev td tsd = Except.ok (outs, g)) :
    ∀ o ∈ outs,
      o.f1 = ((tsd o.epoch).map
          (fun b => b.2 / (s.batch_size_divider : ℚ))).sum
        / (countClosesFrom s.batch_size_divider (td o.epoch).length 0
            (tsd o.epoch).length : ℚ) :=
  (train_ok_parts s prev td tsd outs g h).2.2.1

/-- Witness for C7: in the concrete one-epoch run the reported F1 is
`(1/1) / 1 = 1`. -/
theorem claim_C7_witness :
    train sWit (-1) tdWit tsWit = Except.ok (outsWit, 1)
    ∧ ∀ o ∈ outsWit,
      o.f1 = ((tsWit o.epoch).map
          (fun b => b.2 / (sWit.batch_size_divider : ℚ))).sum
        / (countClosesFrom sWit.batch_size_divider (tdWit o.epoch).length 0
            (tsWit o.epoch).length : ℚ) :=
  ⟨train_wit_fresh,
    claim_C7 sWit (-1) tdWit tsWit outsWit 1 train_wit_fresh⟩

/-- C8: Any configuration whose micro-batch size
`batch_size // batch_size_divider` is below 1 makes trainer construction
fail fatally before any training: a zero divider raises
`ZeroDivisionError` at the floor division, and a zero micro-batch size
fails the dataloader's positive-batch-size validation
(`ValueError`). -/
theorem claim_C8 (s : Settings)
    (h : s.batch_size / s.batch_size_divider < 1) :
    (BaseTrainer_init s).isOk = false := by
  by_cases hd : s.batch_size_divider = 0
  · simp [BaseTrainer_init, floordiv, hd, Bind.bind, Except.bind,
      Except.isOk, Except.toBool]
  · have hm : s.batch_size / s.batch_size_divider = 0 :=
      Nat.lt_one_iff.mp h
    simp [BaseTrainer_init, floordiv, hd, hm, DataLoader_make, Bind.bind,
      Except.bind, Except.isOk, Except.toBool]

/-- Witness for C8: batch size 2 with divider 4 gives micro-batch size 0
and construction fails. -/
theorem claim_C8_witness :
    (2 : Nat) / 4 < 1
    ∧ (BaseTrainer_init ⟨2, 4, false, false, 0⟩).isOk = false :=
  ⟨by decide, claim_C8 ⟨2, 4, false, false, 0⟩ (by decide)⟩

/-- C9: Every `train` call resets the global instrumentation step counter
to 0 before its epoch loop — whatever checkpoint was loaded — so the step
keys any run emits are exactly `0, 1, …, g-1`; consequently two runs of
the same trainer (for example an interrupted run and its resumption) that
each emit at least one instrumentation record both use step key 0. -/
theorem claim_C9 (s : Settings) (prev1 prev2 : Int) (td : Int → List ℚ)
    (tsd : Int → List (ℚ × ℚ)) (outs1 outs2 : List EpochOut) (g1 g2 : Nat)
    (h1 : train s prev1 td tsd = Except.ok (outs1, g1))
    (h2 : train s prev2 td tsd = Except.ok (outs2, g2)) :
    reportSteps (runTrace outs1) = List.range g1
    ∧ reportSteps (runTrace outs2) = List.range g2
    ∧ (1 ≤ g1 → 1 ≤ g2 →
        0 ∈ reportSteps (runTrace outs1)
          ∧ 0 ∈ reportSteps (runTrace outs2)) := by
  have p1 := (train_ok_parts s prev1 td tsd outs1 g1 h1).2.2.2
  have p2 := (train_ok_parts s prev2 td tsd outs2 g2 h2).2.2.2
  refine ⟨p1, p2, fun hg1 hg2 => ⟨?_, ?_⟩⟩
  · rw [p1]
    exact List.mem_range.mpr (by omega)
  · rw [p2]
    exact List.mem_range.mpr (by omega)

/-- Witness for C9: a fresh run (sentinel −1) and a run resumed from
epoch 5 both emit their single instrumentation record with step key 0. -/
theorem claim_C9_witness :
    train sWit (-1) tdWit tsWit = Except.ok (outsWit, 1)
    ∧ train sWit 5 tdWit tsWit = Except.ok (outsWitResumed, 1)
    ∧ (reportSteps (runTrace outsWit) = List.range 1
    ∧ reportSteps (runTrace outsWitResumed) = List.range 1
    ∧ (1 ≤ 1 → 1 ≤ 1 →
        0 ∈ reportSteps (runTrace outsWit)
          ∧ 0 ∈ reportSteps (runTrace outsWitResumed))) :=
  ⟨train_wit_fresh, train_wit_resumed,
    claim_C9 sWit (-1) 5 tdWit tsWit outsWit outsWitResumed 1 1
      train_wit_fresh train_wit_resumed⟩

end SuperPoint
